import Mathlib

/-!
Shallow embedding of `super_native_extensions/rust/src/android/reader.rs`
(`PlatformDataReader` and its JNI completion callback), together with
theorems settling the specification claims about it.

The foreign (JNI) runtime, the `url` crate, and repository modules that are
not part of the sources under verification (the error enum, the canonical
URI-list MIME constant, `FutureCompleter`) are modelled at their interface,
as the spec describes them; everything else is translated directly from
`reader.rs`.
-/

namespace SNE

/-- Opaque data value (`nativeshell_core::Value` as used by reader.rs):
absent / text / raw byte sequence. Bytes are `jbyte` values. -/
inductive Value where
  | null
  | string (s : String)
  | u8List (bytes : List Int)
  deriving Repr, DecidableEq

/-- Modelled from the spec: `NativeExtensionsError` (error.rs is not among the
sources). The kinds reader.rs can produce: a context/environment error with a
message (`OtherError`), a foreign-call (JNI) failure converted via `?`
(abstracted by an error code), and `UnsupportedOperation`. -/
inductive NativeExtensionsError where
  | otherError (msg : String)
  | jniError (code : Nat)
  | unsupportedOperation
  deriving Repr, DecidableEq

abbrev NativeExtensionsResult (α : Type) := Except NativeExtensionsError α

/-- Wrap an unbounded integer to the signed 64-bit range, i.e. two's
complement `i64` overflow semantics for `NEXT_HANDLE`'s `res + 1`. -/
def wrap64 (x : Int) : Int := (x + 2 ^ 63) % 2 ^ 64 - 2 ^ 63

/-- The `jint` value observed by the foreign side when an `i64` is passed
through a 32-bit slot (the trailing `I` of the `getData` JNI signature), and
equally the value of that `jint` after `as i64` sign extension: truncation to
the low 32 bits read as signed two's complement. -/
def jintOfJlong (x : Int) : Int := (x + 2 ^ 31) % 2 ^ 32 - 2 ^ 31

/-- Identity of a `FutureCompleter` sink (a modelling device: sinks are
distinguished by allocation order). -/
abbrev SinkId := Nat

/-- Remove every binding of key `k` (HashMap::remove / the removal part of
HashMap::insert on an association-list model of `PENDING`). -/
def eraseKey (k : Int) : List (Int × SinkId) → List (Int × SinkId)
  | [] => []
  | (k2, v) :: rest =>
    if k2 = k then eraseKey k rest else (k2, v) :: eraseKey k rest

/-- HashMap::insert semantics: the new binding replaces any binding of the
same key. -/
def insertPending (k : Int) (v : SinkId) (m : List (Int × SinkId)) :
    List (Int × SinkId) :=
  (k, v) :: eraseKey k m

/-- HashMap lookup on the association-list model of `PENDING`. -/
def lookupPending (k : Int) : List (Int × SinkId) → Option SinkId
  | [] => none
  | (k2, v) :: rest => if k2 = k then some v else lookupPending k rest

/-- HashMap::remove: return the removed sink (if any) and the map without
the key. -/
def removePending (k : Int) (m : List (Int × SinkId)) :
    Option SinkId × List (Int × SinkId) :=
  match lookupPending k m with
  | some v => (some v, eraseKey k m)
  | none => (none, m)

/-- The thread-local mutable state of the reader module: the `NEXT_HANDLE`
cell (an `i64`, starting at 1), the `PENDING` map from handle to completion
sink, and a counter giving each created `FutureCompleter` a distinct
identity. -/
structure RegistryState where
  nextHandle : Int
  pending : List (Int × SinkId)
  nextSink : SinkId
  deriving Repr, DecidableEq

/-- The state at module start: `NEXT_HANDLE = 1`, empty `PENDING`. -/
def RegistryState.initial : RegistryState := ⟨1, [], 0⟩

/-- Modelled from the spec: the observable behaviour of the foreign (JNI)
environment at the interface reader.rs uses. Each fallible foreign call
either succeeds or raises a JNI error identified by a code. -/
structure ForeignWorld where
  /-- whether the `JAVA_VM` once-cell has been set -/
  javaVmSet : Bool
  /-- result of `attach_current_thread` -/
  attach : Except Nat Unit
  /-- result of `getItemCount` on the clip object (a `jint`) -/
  getItemCount : Except Nat Int
  /-- result of the `getFormats` helper call for an item; a null array is
  `none` -/
  getFormats : Int → Except Nat (Option (List String))
  /-- result of `env.new_string(format)` -/
  newString : String → Except Nat Unit
  /-- result of issuing the asynchronous `getData` helper call; the handle
  argument is the `jint` the foreign side receives -/
  callGetData : Int → String → Int → Except Nat Unit

/-- The reader: an optional foreign clip-data reference (the reference itself
is opaque; queries about it go through the `ForeignWorld`). -/
structure PlatformDataReader where
  clip_data : Option Unit

/-- `from_clip_data`: a null object becomes `None`, otherwise a global
reference is retained. -/
def from_clip_data (clipDataIsNull : Bool) : PlatformDataReader :=
  if clipDataIsNull then ⟨none⟩ else ⟨some ()⟩

/-- `get_env_and_context`: fails with `OtherError "JAVA_VM not set"` when the
VM cell is unset, otherwise propagates any `attach_current_thread` failure. -/
def get_env_and_context (w : ForeignWorld) : NativeExtensionsResult Unit :=
  if w.javaVmSet then
    match w.attach with
    | .ok _ => .ok ()
    | .error c => .error (.jniError c)
  else .error (.otherError "JAVA_VM not set")

/-- `get_items_sync`: with no clip data, `Ok(Vec::new())`; otherwise query
`getItemCount` and collect `(0..count as i64)`. -/
def get_items_sync (w : ForeignWorld) (r : PlatformDataReader) :
    NativeExtensionsResult (List Int) :=
  match r.clip_data with
  | some _ =>
    match get_env_and_context w with
    | .error e => .error e
    | .ok _ =>
      match w.getItemCount with
      | .error c => .error (.jniError c)
      | .ok count => .ok ((List.range count.toNat).map Int.ofNat)
  | none => .ok []

/-- `get_items`: the async wrapper simply delegates to `get_items_sync`. -/
def get_items (w : ForeignWorld) (r : PlatformDataReader) :
    NativeExtensionsResult (List Int) :=
  get_items_sync w r

/-- `get_formats_for_item_sync`: with no clip data, `Ok(Vec::new())`;
otherwise call the `getFormats` helper, mapping a null array to the empty
list. -/
def get_formats_for_item_sync (w : ForeignWorld) (r : PlatformDataReader)
    (item : Int) : NativeExtensionsResult (List String) :=
  match r.clip_data with
  | some _ =>
    match get_env_and_context w with
    | .error e => .error e
    | .ok _ =>
      match w.getFormats item with
      | .error c => .error (.jniError c)
      | .ok none => .ok []
      | .ok (some fs) => .ok fs
  | none => .ok []

/-- `get_formats_for_item`: async wrapper delegating to the sync variant. -/
def get_formats_for_item (w : ForeignWorld) (r : PlatformDataReader)
    (item : Int) : NativeExtensionsResult (List String) :=
  get_formats_for_item_sync w r item

/-- Outcome of the synchronous part of `get_data_for_item`: either the value
is produced immediately (no clip data), or a foreign fetch was issued and the
caller suspends on the registered handle's completion. -/
inductive IssueOut where
  | immediate (v : Value)
  | suspended (handle : Int) (sink : SinkId)
  deriving Repr, DecidableEq

/-- The synchronous prefix of `get_data_for_item`, as a transition on the
thread-local registry state. With clip data present it: creates a
`FutureCompleter` (line 167), obtains env and context (line 168, failure
propagates before any handle exists), allocates the next handle with
wrapping `i64` increment (lines 170-174), inserts the completer into
`PENDING` (line 175), and only then evaluates `env.new_string(format)` and
issues the `getData` call (lines 177-188), whose failures propagate with the
entry already registered. The handle crosses the JNI boundary through the
32-bit `I` slot of the signature, hence `jintOfJlong`. -/
def get_data_for_item_issue (w : ForeignWorld) (r : PlatformDataReader)
    (item : Int) (format : String) (st : RegistryState) :
    NativeExtensionsResult IssueOut × RegistryState :=
  match r.clip_data with
  | none => (.ok (.immediate .null), st)
  | some _ =>
    let sink := st.nextSink
    let st1 : RegistryState :=
      { st with nextSink := sink + 1 }
    match get_env_and_context w with
    | .error e => (.error e, st1)
    | .ok _ =>
      let handle := st1.nextHandle
      let st2 : RegistryState :=
        { st1 with
            nextHandle := wrap64 (handle + 1)
            pending := insertPending handle sink st1.pending }
      match w.newString format with
      | .error c => (.error (.jniError c), st2)
      | .ok _ =>
        match w.callGetData item format (jintOfJlong handle) with
        | .error c => (.error (.jniError c), st2)
        | .ok _ => (.ok (.suspended handle sink), st2)

/-- The raw payload delivered to the `onData` callback, as its decode closure
distinguishes it: a null object, a `java/lang/CharSequence`, or anything
else (treated as a byte array). -/
inductive Payload where
  | null
  | charSequence (s : String)
  | byteArray (bytes : List Int)
  deriving Repr, DecidableEq

/-- Modelled from the spec: fallibility of the JNI calls made while decoding
a payload (`is_instance_of`, `get_string`, and the byte-array reads), each
either succeeding or raising an error code. -/
structure DecodeWorld where
  isInstanceOfErr : Option Nat
  getStringErr : Option Nat
  byteReadErr : Option Nat

/-- `DecodeWorld` with no failing decode call. -/
def DecodeWorld.ok : DecodeWorld := ⟨none, none, none⟩

/-- The decode closure inside `onData` (lines 136-148): null payload yields
`Value::Null` with no foreign call; otherwise `is_instance_of` runs and may
fail; a CharSequence is read via `get_string`; anything else via the
byte-array calls; every foreign failure is captured as the closure's
result. -/
def decodePayload (dw : DecodeWorld) (p : Payload) :
    NativeExtensionsResult Value :=
  match p with
  | .null => .ok .null
  | .charSequence s =>
    match dw.isInstanceOfErr with
    | some c => .error (.jniError c)
    | none =>
      match dw.getStringErr with
      | some c => .error (.jniError c)
      | none => .ok (.string s)
  | .byteArray bs =>
    match dw.isInstanceOfErr with
    | some c => .error (.jniError c)
    | none =>
      match dw.byteReadErr with
      | some c => .error (.jniError c)
      | none => .ok (.u8List bs)

/-- The closure `onData` posts to the owning context (lines 150-155): remove
the `PENDING` entry keyed by `handle as i64` (sign extension of the callback's
`jint`, the identity on an integer already in `i32` range) and complete it
with the decoded result; an absent entry means nothing happens. Returns the
new state and the completed sink with the result it received, if any. -/
def onData (handleJint : Int) (result : NativeExtensionsResult Value)
    (st : RegistryState) :
    RegistryState × Option (SinkId × NativeExtensionsResult Value) :=
  match removePending handleJint st.pending with
  | (some sink, rest) => ({ st with pending := rest }, some (sink, result))
  | (none, _) => (st, none)

/-- The whole callback
`Java_com_superlist_super_1native_1extensions_ClipDataHelper_onData`:
decode in the callback context, then deliver on the owning context. -/
def onData_full (dw : DecodeWorld) (handleJint : Int) (p : Payload)
    (st : RegistryState) :
    RegistryState × Option (SinkId × NativeExtensionsResult Value) :=
  onData handleJint (decodePayload dw p) st

/-- End-to-end result of `get_data_for_item` once the foreign side has
answered with `payload`: issue the fetch; on suspension, the callback arrives
carrying the `jint` the foreign side received for the handle, and the awaited
future yields whatever was delivered to this call's sink. `none` means the
caller stays suspended forever (its sink was never completed). -/
def get_data_for_item_result (w : ForeignWorld) (dw : DecodeWorld)
    (payload : Payload) (r : PlatformDataReader) (item : Int)
    (format : String) (st : RegistryState) :
    Option (NativeExtensionsResult Value) × RegistryState :=
  match get_data_for_item_issue w r item format st with
  | (.error e, st1) => (some (.error e), st1)
  | (.ok (.immediate v), st1) => (some (.ok v), st1)
  | (.ok (.suspended h sink), st1) =>
    match onData_full dw (jintOfJlong h) payload st1 with
    | (st2, some (s, res)) =>
      (if s = sink then some res else none, st2)
    | (st2, none) => (none, st2)

/-- Modelled from the spec: the canonical URI-list format identifier
(`MIME_TYPE_URI_LIST`, defined in the android module root, which is not among
the sources): the fixed well-known MIME token for "this item carries a list
of URIs". -/
def MIME_TYPE_URI_LIST : String := "text/uri-list"

/-- Split a character list at the first colon: the part before and the part
after, or `none` if there is no colon. -/
def splitAtColon : List Char → Option (List Char × List Char)
  | [] => none
  | c :: rest =>
    if c = ':' then some ([], rest)
    else (splitAtColon rest).map (fun p => (c :: p.1, p.2))

/-- Characters allowed in a URI scheme after the first. -/
def schemeCharOk (c : Char) : Bool :=
  c.isAlphanum || c = '+' || c = '-' || c = '.'

/-- Split a character list on a separator, keeping empty pieces (the
semantics of splitting a string on a single character). -/
def splitChar (sep : Char) : List Char → List (List Char)
  | [] => [[]]
  | c :: rest =>
    match splitChar sep rest with
    | [] => [[]]
    | g :: gs => if c = sep then [] :: g :: gs else (c :: g) :: gs

/-- Modelled from the spec: a parsed URI as the external `url` crate exposes
it to reader.rs — a scheme and a path (the authority, query and fragment play
no role in the suggested-name derivation). -/
structure Url where
  scheme : List Char
  path : List Char
  deriving Repr, DecidableEq

/-- Modelled from the spec: `Url::parse`. The text must have a colon preceded
by a valid scheme (nonempty, leading letter, then letters, digits, `+`, `-`,
`.`); after the colon, a `//` introduces an authority running up to the next
`/`, with the path being everything from that `/` on; without `//` the rest
is the path. Anything else fails to parse. -/
def Url.parse (s : String) : Option Url :=
  match splitAtColon s.toList with
  | none => none
  | some (schemeChars, rest) =>
    if (!schemeChars.isEmpty
        && schemeChars.head?.elim false Char.isAlpha
        && schemeChars.all schemeCharOk) = true then
      match rest with
      | '/' :: '/' :: rest2 =>
        some ⟨schemeChars, rest2.dropWhile (fun c => c ≠ '/')⟩
      | _ => some ⟨schemeChars, rest⟩
    else none

/-- Modelled from the spec: `Url::path_segments` — defined exactly when the
path begins with `/`, in which case it is the remainder split on `/`. -/
def Url.path_segments (u : Url) : Option (List (List Char)) :=
  match u.path with
  | '/' :: rest => some (splitChar '/' rest)
  | _ => none

/-- `get_suggested_name_for_item` (lines 90-109): fetch the item's formats
(errors propagate via `?`); when the URI-list format is present, fetch that
format's data (errors propagate via `?`); if the value is text that parses
as a URI whose path has segments, return the last segment unless it is
empty; every other fall-through returns `Ok(None)`. The result is `none`
when the awaited data fetch never completes. -/
def get_suggested_name_for_item (w : ForeignWorld) (dw : DecodeWorld)
    (payload : Payload) (r : PlatformDataReader) (item : Int)
    (st : RegistryState) :
    Option (NativeExtensionsResult (Option String)) × RegistryState :=
  match get_formats_for_item_sync w r item with
  | .error e => (some (.error e), st)
  | .ok formats =>
    if formats.any (fun s => s == MIME_TYPE_URI_LIST) then
      match get_data_for_item_result w dw payload r item
          MIME_TYPE_URI_LIST st with
      | (none, st1) => (none, st1)
      | (some (.error e), st1) => (some (.error e), st1)
      | (some (.ok v), st1) =>
        match v with
        | .string url =>
          match Url.parse url with
          | some u =>
            match u.path_segments with
            | some segs =>
              (some (.ok
                (match segs.getLast? with
                 | some l => if l = [] then none else some (String.mk l)
                 | none => none)), st1)
            | none => (some (.ok none), st1)
          | none => (some (.ok none), st1)
        | _ => (some (.ok none), st1)
    else (some (.ok none), st)

/-- `item_format_is_synthetized`: always `Ok(false)`. -/
def item_format_is_synthetized (_r : PlatformDataReader) (_item : Int)
    (_format : String) : NativeExtensionsResult Bool :=
  .ok false

/-- `can_get_virtual_file_for_item`: always `Ok(false)`. -/
def can_get_virtual_file_for_item (_r : PlatformDataReader) (_item : Int)
    (_format : String) : NativeExtensionsResult Bool :=
  .ok false

/-- `get_virtual_file_for_item`: always
`Err(NativeExtensionsError::UnsupportedOperation)`; the target folder is an
opaque path string here. -/
def get_virtual_file_for_item (_r : PlatformDataReader) (_item : Int)
    (_format : String) (_targetFolder : String) :
    NativeExtensionsResult String :=
  .error .unsupportedOperation

/-- A foreign world in which every call relevant to issuing a fetch succeeds
(`JAVA_VM` set, attach succeeds, string conversion and the `getData`
invocation succeed). -/
def issuanceOk (w : ForeignWorld) : Prop :=
  w.javaVmSet = true ∧ w.attach = .ok () ∧
    (∀ s, w.newString s = .ok ()) ∧ (∀ i f h, w.callGetData i f h = .ok ())

/-- Iterate the synchronous prefix of `get_data_for_item` `n` times from a
state, collecting the handles of the fetches that were actually issued. -/
def issueMany (w : ForeignWorld) (r : PlatformDataReader) (item : Int)
    (format : String) : Nat → RegistryState → List Int × RegistryState
  | 0, st => ([], st)
  | n + 1, st =>
    match get_data_for_item_issue w r item format st with
    | (.ok (.suspended h _), st1) =>
      let out := issueMany w r item format n st1
      (h :: out.1, out.2)
    | (_, st1) => issueMany w r item format n st1

/-- The keys of the pending-request map. -/
def pendingKeys (m : List (Int × SinkId)) : List Int :=
  m.map Prod.fst

/-- The suggested-name extraction, stated in the spec's words: parse the text
as a URI; if parsing succeeds and the URI path has segments, take the last
path segment provided it is non-empty. -/
def spec_last_path_segment (s : String) : Option String :=
  match (Url.parse s).bind Url.path_segments with
  | some segs =>
    ((segs.getLast?).filter (fun l => !l.isEmpty)).map String.mk
  | none => none

/-- A concrete foreign world where every call succeeds: item count 3, one
format (the URI list) per item. -/
def wAllOk : ForeignWorld :=
  { javaVmSet := true
    attach := .ok ()
    getItemCount := .ok 3
    getFormats := fun _ => .ok (some [MIME_TYPE_URI_LIST])
    newString := fun _ => .ok ()
    callGetData := fun _ _ _ => .ok () }

/-- `wAllOk` except that string conversion (`env.new_string`) fails. -/
def wNewStringFails : ForeignWorld :=
  { wAllOk with newString := fun _ => .error 7 }

/-- `wAllOk` except that invoking the `getData` method fails. -/
def wCallFails : ForeignWorld :=
  { wAllOk with callGetData := fun _ _ _ => .error 9 }

/-- `wAllOk` except that the `getFormats` helper call fails. -/
def wFormatsFail : ForeignWorld :=
  { wAllOk with getFormats := fun _ => .error 3 }

/-! ## Lemmas about the pending-request map -/

theorem mem_eraseKey (p : Int × SinkId) (k : Int) (m : List (Int × SinkId))
    (h : p ∈ eraseKey k m) : p ∈ m ∧ p.1 ≠ k := by
  induction m with
  | nil => simp [eraseKey] at h
  | cons q rest ih =>
    obtain ⟨k2, v⟩ := q
    by_cases hk : k2 = k
    · simp only [eraseKey, if_pos hk] at h
      exact ⟨List.mem_cons_of_mem _ (ih h).1, (ih h).2⟩
    · simp only [eraseKey, if_neg hk] at h
      rcases List.mem_cons.mp h with h | h
      · subst h
        exact ⟨List.mem_cons_self _ _, hk⟩
      · exact ⟨List.mem_cons_of_mem _ (ih h).1, (ih h).2⟩

theorem eraseKey_sublist (k : Int) (m : List (Int × SinkId)) :
    (eraseKey k m).Sublist m := by
  induction m with
  | nil => simp [eraseKey]
  | cons q rest ih =>
    obtain ⟨k2, v⟩ := q
    by_cases hk : k2 = k
    · simpa [eraseKey, hk] using ih.trans (List.sublist_cons_self _ _)
    · simpa [eraseKey, hk] using ih.cons₂ (k2, v)

theorem lookupPending_eraseKey_self (k : Int) (m : List (Int × SinkId)) :
    lookupPending k (eraseKey k m) = none := by
  induction m with
  | nil => rfl
  | cons q rest ih =>
    obtain ⟨k2, v⟩ := q
    by_cases hk : k2 = k
    · simpa [eraseKey, if_pos hk] using ih
    · simp [eraseKey, if_neg hk, lookupPending, hk, ih]

theorem lookupPending_eraseKey_ne (h k : Int) (m : List (Int × SinkId))
    (hne : h ≠ k) : lookupPending h (eraseKey k m) = lookupPending h m := by
  induction m with
  | nil => rfl
  | cons q rest ih =>
    obtain ⟨k2, v⟩ := q
    by_cases hk : k2 = k
    · have hk2 : ¬k2 = h := fun e => hne (e ▸ hk.symm ▸ rfl)
      simp [eraseKey, if_pos hk, lookupPending, hk2, ih]
    · by_cases hk2 : k2 = h
      · simp [eraseKey, if_neg hk, lookupPending, hk2, hne]
      · simp [eraseKey, if_neg hk, lookupPending, hk2, ih]

theorem lookupPending_insert_self (k : Int) (v : SinkId)
    (m : List (Int × SinkId)) :
    lookupPending k (insertPending k v m) = some v := by
  simp [insertPending, lookupPending]

theorem pendingKeys_insert_nodup (k : Int) (v : SinkId)
    (m : List (Int × SinkId)) (h : (pendingKeys m).Nodup) :
    (pendingKeys (insertPending k v m)).Nodup := by
  have h1 : (pendingKeys (eraseKey k m)).Nodup :=
    h.sublist ((eraseKey_sublist k m).map Prod.fst)
  refine List.nodup_cons.mpr ⟨?_, h1⟩
  intro hmem
  obtain ⟨p, hp, hpk⟩ := List.mem_map.mp hmem
  exact (mem_eraseKey p k m hp).2 hpk

/-! ## Lemmas about the completion callback -/

theorem onData_absent (h : Int) (res : NativeExtensionsResult Value)
    (st : RegistryState) (ha : lookupPending h st.pending = none) :
    onData h res st = (st, none) := by
  simp [onData, removePending, ha]

theorem onData_present (h : Int) (res : NativeExtensionsResult Value)
    (st : RegistryState) (sink : SinkId)
    (hp : lookupPending h st.pending = some sink) :
    onData h res st =
      ({ st with pending := eraseKey h st.pending }, some (sink, res)) := by
  simp [onData, removePending, hp]

theorem onData_fst_lookup_none (h : Int) (res : NativeExtensionsResult Value)
    (st : RegistryState) :
    lookupPending h ((onData h res st).1).pending = none := by
  cases hl : lookupPending h st.pending with
  | none => simp [onData_absent h res st hl, hl]
  | some sink =>
    simp [onData_present h res st sink hl, lookupPending_eraseKey_self]

/-! ## Lemmas about the handle counter -/

theorem wrap64_idem (x : Int) : wrap64 (wrap64 x) = wrap64 x := by
  unfold wrap64
  omega

theorem wrap64_add_left (x y : Int) :
    wrap64 (wrap64 x + y) = wrap64 (x + y) := by
  unfold wrap64
  omega

theorem wrap64_eq_self (x : Int) (h0 : 0 ≤ x) (h1 : x < 2 ^ 63) :
    wrap64 x = x := by
  unfold wrap64
  omega

theorem issue_ok (w : ForeignWorld) (hw : issuanceOk w) (item : Int)
    (format : String) (st : RegistryState) :
    get_data_for_item_issue w ⟨some ()⟩ item format st =
      (.ok (.suspended st.nextHandle st.nextSink),
       { nextHandle := wrap64 (st.nextHandle + 1)
         pending := insertPending st.nextHandle st.nextSink st.pending
         nextSink := st.nextSink + 1 }) := by
  obtain ⟨hv, ha, hns, hcd⟩ := hw
  obtain ⟨nh, pm, ns⟩ := st
  simp [get_data_for_item_issue, get_env_and_context, hv, ha, hns, hcd]

theorem range_map_succ_shift (f : Nat → Int) (n : Nat) :
    (List.range (n + 1)).map f = f 0 :: (List.range n).map (fun k => f (k + 1)) := by
  rw [List.range_succ_eq_map, List.map_cons, List.map_map]
  rfl

theorem issueMany_handles (w : ForeignWorld) (hw : issuanceOk w) (item : Int)
    (format : String) (n : Nat) (st : RegistryState)
    (hst : st.nextHandle = wrap64 st.nextHandle) :
    (issueMany w ⟨some ()⟩ item format n st).1 =
      (List.range n).map (fun k : Nat => wrap64 (st.nextHandle + (k : Int))) := by
  induction n generalizing st with
  | zero => simp [issueMany]
  | succ n ih =>
    simp only [issueMany]
    rw [issue_ok w hw item format st]
    have ih2 := ih
      { nextHandle := wrap64 (st.nextHandle + 1)
        pending := insertPending st.nextHandle st.nextSink st.pending
        nextSink := st.nextSink + 1 } (by simp [wrap64_idem])
    have htail :
        (issueMany w ⟨some ()⟩ item format n
          { nextHandle := wrap64 (st.nextHandle + 1)
            pending := insertPending st.nextHandle st.nextSink st.pending
            nextSink := st.nextSink + 1 }).1 =
        (List.range n).map (fun k => wrap64 (st.nextHandle + ((k + 1 : Nat) : Int))) := by
      rw [ih2]
      refine List.map_congr_left ?_
      intro k _
      rw [wrap64_add_left]
      congr 1
      push_cast
      ring
    simp only [htail, range_map_succ_shift]
    simp only [Nat.cast_zero, add_zero]
    rw [← hst]

theorem issueMany_keys_nodup (w : ForeignWorld) (hw : issuanceOk w)
    (item : Int) (format : String) (n : Nat) (st : RegistryState)
    (h : (pendingKeys st.pending).Nodup) :
    (pendingKeys
      ((issueMany w ⟨some ()⟩ item format n st).2.pending)).Nodup := by
  induction n generalizing st with
  | zero => simpa [issueMany]
  | succ n ih =>
    rw [issueMany, issue_ok w hw item format st]
    exact ih _ (pendingKeys_insert_nodup _ _ _ h)

/-! ## Claim theorems -/

/-- C3: delivering a completion for a handle that was never registered in the
pending-request registry, or whose entry was already removed by an earlier
completion, has no observable effect: no sink is invoked, no entry changes,
and no error is raised; hence each registered sink is completed at most once
(a second delivery for the same handle is always a no-op). -/
theorem C3_unmatched_completion_noop (h : Int)
    (res res2 : NativeExtensionsResult Value) (st : RegistryState) :
    (lookupPending h st.pending = none → onData h res st = (st, none)) ∧
    onData h res2 (onData h res st).1 = ((onData h res st).1, none) := by
  refine ⟨fun ha => onData_absent h res st ha, ?_⟩
  exact onData_absent h res2 _ (onData_fst_lookup_none h res st)

/-- Witness for C3: an unregistered handle (42 against an empty registry) is
ignored, and a second completion for handle 7 after the first removed its
entry is also ignored. -/
theorem C3_witness :
    (lookupPending 42 RegistryState.initial.pending = none ∧
      onData 42 (.ok .null) RegistryState.initial =
        (RegistryState.initial, none)) ∧
    onData 7 (.ok .null) (onData 7 (.ok (.string "a")) ⟨2, [(7, 0)], 1⟩).1 =
      ((onData 7 (.ok (.string "a")) ⟨2, [(7, 0)], 1⟩).1, none) :=
  ⟨⟨rfl, (C3_unmatched_completion_noop 42 (.ok .null) (.ok .null)
      RegistryState.initial).1 rfl⟩,
    (C3_unmatched_completion_noop 7 (.ok (.string "a")) (.ok .null)
      ⟨2, [(7, 0)], 1⟩).2⟩

/-- C9: `can_get_virtual_file_for_item` always returns false and
`get_virtual_file_for_item` always fails with the distinct
unsupported-operation error kind, for any item, format and target folder. -/
theorem C9_virtual_file_unsupported (r : PlatformDataReader) (item : Int)
    (format tf : String) :
    can_get_virtual_file_for_item r item format = .ok false ∧
    get_virtual_file_for_item r item format tf =
      .error .unsupportedOperation :=
  ⟨rfl, rfl⟩

/-- C8: on a reader constructed from a null clip object (empty clipboard),
items and formats are empty and a data fetch yields the absent value
immediately and successfully — for every foreign world (so no foreign call is
consulted) and with the registry state unchanged (so no handle is
registered). -/
theorem C8_empty_reader (w : ForeignWorld) (dw : DecodeWorld)
    (payload : Payload) (item : Int) (format : String) (st : RegistryState) :
    get_items w (from_clip_data true) = .ok [] ∧
    get_formats_for_item_sync w (from_clip_data true) item = .ok [] ∧
    get_data_for_item_issue w (from_clip_data true) item format st =
      (.ok (.immediate .null), st) ∧
    get_data_for_item_result w dw payload (from_clip_data true) item format
      st = (some (.ok .null), st) :=
  ⟨rfl, rfl, rfl, rfl⟩

/-- C10: the handle is registered under its full 64-bit value but crosses
the foreign boundary through a 32-bit slot and comes back sign-extended
(`jintOfJlong`); a handle of 2^31 or more therefore differs from the lookup
key its completion will use, so the completion leaves that handle's registry
entry untouched, while any handle within the signed 32-bit range survives the
round trip unchanged. -/
theorem C10_handle_truncation (h g : Int) (st : RegistryState)
    (res : NativeExtensionsResult Value)
    (h1 : 2 ^ 31 ≤ h) (h2 : h < 2 ^ 63) (g1 : -2 ^ 31 ≤ g)
    (g2 : g < 2 ^ 31) :
    jintOfJlong h ≠ h ∧
    lookupPending h ((onData (jintOfJlong h) res st).1).pending =
      lookupPending h st.pending ∧
    jintOfJlong g = g := by
  have hne : jintOfJlong h ≠ h := by
    unfold jintOfJlong
    omega
  refine ⟨hne, ?_, by unfold jintOfJlong; omega⟩
  cases hl : lookupPending (jintOfJlong h) st.pending with
  | none => rw [onData_absent _ res st hl]
  | some sink =>
    rw [onData_present _ res st sink hl]
    exact lookupPending_eraseKey_ne h (jintOfJlong h) st.pending
      (Ne.symm hne)

/-- Witness for C10: handle 2^31 does not survive the 32-bit round trip and
its entry cannot be completed, while handle 5 does survive. -/
theorem C10_witness :
    (2 ^ 31 ≤ (2 ^ 31 : Int)) ∧ ((2 ^ 31 : Int) < 2 ^ 63) ∧
    (-2 ^ 31 ≤ (5 : Int)) ∧ ((5 : Int) < 2 ^ 31) ∧
    (jintOfJlong (2 ^ 31) ≠ (2 ^ 31 : Int) ∧
      lookupPending (2 ^ 31)
          ((onData (jintOfJlong (2 ^ 31)) (.ok .null)
            RegistryState.initial).1).pending =
        lookupPending (2 ^ 31) RegistryState.initial.pending ∧
      jintOfJlong 5 = 5) := by
  refine ⟨by norm_num, by norm_num, by norm_num, by norm_num, ?_⟩
  exact C10_handle_truncation (2 ^ 31) 5 RegistryState.initial (.ok .null)
    (by norm_num) (by norm_num) (by norm_num) (by norm_num)

/-- C7: with a clip object present and a foreign item count of N, get_items
returns exactly the contiguous index sequence [0, 1, ..., N-1] in that
order; with no clip object it returns the empty sequence without error. -/
theorem C7_items_contiguous (w : ForeignWorld) (r : PlatformDataReader)
    (N : Int) :
    (r.clip_data = some () →
      get_env_and_context w = .ok () →
      w.getItemCount = .ok N →
      ∃ l, get_items w r = .ok l ∧ l.length = N.toNat ∧
        ∀ (i : Nat) (hi : i < l.length), l[i] = (i : Int)) ∧
    (r.clip_data = none → get_items w r = .ok []) := by
  constructor
  · intro h1 h2 h3
    refine ⟨(List.range N.toNat).map Int.ofNat, ?_, by simp, ?_⟩
    · unfold get_items get_items_sync
      rw [h1, h2, h3]
    · intro i hi
      simp
  · intro h1
    unfold get_items get_items_sync
    rw [h1]

/-- Witness for C7: a clip object with item count 3 yields exactly
[0, 1, 2]. -/
theorem C7_witness :
    ((⟨some ()⟩ : PlatformDataReader).clip_data = some ()) ∧
    get_env_and_context wAllOk = .ok () ∧
    wAllOk.getItemCount = .ok 3 ∧
    get_items wAllOk ⟨some ()⟩ = .ok [0, 1, 2] := by
  obtain ⟨l, hl, hlen, hget⟩ :=
    (C7_items_contiguous wAllOk ⟨some ()⟩ 3).1 rfl rfl rfl
  refine ⟨rfl, rfl, rfl, ?_⟩
  have hl3 : l = [0, 1, 2] := by
    apply List.ext_getElem
    · simpa using hlen
    · intro i hi1 hi2
      rw [hget i hi1]
      have h3 : i < 3 := by simpa using hi2
      interval_cases i <;> rfl
  rw [← hl3]
  exact hl

/-- C4 counterexample: the handle counter is a wrapping 64-bit integer, so
on the 2^63-th call issued from the initial state the allocated handle is
-2^63, not 2^63 as the claim's "n-th allocated handle equals n" requires. -/
theorem C4_counterexample :
    ((issueMany wAllOk ⟨some ()⟩ 0 "text/plain" (2 ^ 63)
        RegistryState.initial).1).getLast? = some (-(2 ^ 63) : Int) ∧
    (-(2 ^ 63) : Int) ≠ 2 ^ 63 := by
  constructor
  · have hw : issuanceOk wAllOk := ⟨rfl, rfl, fun _ => rfl, fun _ _ _ => rfl⟩
    have h1 : RegistryState.initial.nextHandle =
        wrap64 RegistryState.initial.nextHandle := by
      show (1 : Int) = wrap64 1
      rw [wrap64_eq_self 1 (by norm_num) (by norm_num)]
    rw [issueMany_handles wAllOk hw 0 "text/plain" (2 ^ 63)
      RegistryState.initial h1]
    have h2 : (2 : Nat) ^ 63 = (2 ^ 63 - 1) + 1 := by norm_num
    rw [h2, List.range_succ, List.map_append, List.map_cons, List.map_nil,
      List.getLast?_concat]
    norm_num [wrap64, RegistryState.initial]
  · norm_num

/-- C4 amended: as long as the 64-bit counter has not overflowed (at most
2^63 - 1 calls), handle allocation is strictly increasing from 1: the n-th
allocated handle equals n, all allocated handles are pairwise distinct, and
the keys of the outstanding registry entries remain pairwise distinct. -/
theorem C4_amended_handles (w : ForeignWorld) (item : Int) (format : String)
    (n : Nat) (hw : issuanceOk w) (hn : (n : Int) < 2 ^ 63) :
    (issueMany w ⟨some ()⟩ item format n RegistryState.initial).1 =
      (List.range n).map (fun k : Nat => (k : Int) + 1) ∧
    ((issueMany w ⟨some ()⟩ item format n RegistryState.initial).1).Nodup ∧
    (pendingKeys ((issueMany w ⟨some ()⟩ item format n
        RegistryState.initial).2.pending)).Nodup := by
  have h1 : RegistryState.initial.nextHandle =
      wrap64 RegistryState.initial.nextHandle := by
    show (1 : Int) = wrap64 1
    rw [wrap64_eq_self 1 (by norm_num) (by norm_num)]
  have hmain :
      (issueMany w ⟨some ()⟩ item format n RegistryState.initial).1 =
        (List.range n).map (fun k : Nat => (k : Int) + 1) := by
    rw [issueMany_handles w hw item format n RegistryState.initial h1]
    refine List.map_congr_left ?_
    intro k hk
    rw [List.mem_range] at hk
    have hk2 : (k : Int) < (n : Int) := by exact_mod_cast hk
    show wrap64 (RegistryState.initial.nextHandle + (k : Int)) = (k : Int) + 1
    have hinit : RegistryState.initial.nextHandle = 1 := rfl
    rw [hinit, wrap64_eq_self (1 + (k : Int)) (by positivity) (by omega)]
    ring
  refine ⟨hmain, ?_, ?_⟩
  · rw [hmain]
    exact (List.nodup_range n).map (fun a b hab => by omega)
  · exact issueMany_keys_nodup w hw item format n RegistryState.initial
      (by simp [RegistryState.initial, pendingKeys])

/-- Witness for C4: three calls in a fully successful world allocate
handles [1, 2, 3], pairwise distinct, with distinct registry keys. -/
theorem C4_amended_witness :
    issuanceOk wAllOk ∧ ((3 : Nat) : Int) < 2 ^ 63 ∧
    ((issueMany wAllOk ⟨some ()⟩ 0 "text/plain" 3 RegistryState.initial).1 =
        (List.range 3).map (fun k : Nat => (k : Int) + 1) ∧
      ((issueMany wAllOk ⟨some ()⟩ 0 "text/plain" 3
          RegistryState.initial).1).Nodup ∧
      (pendingKeys ((issueMany wAllOk ⟨some ()⟩ 0 "text/plain" 3
          RegistryState.initial).2.pending)).Nodup) := by
  have hw : issuanceOk wAllOk := ⟨rfl, rfl, fun _ => rfl, fun _ _ _ => rfl⟩
  exact ⟨hw, by norm_num,
    C4_amended_handles wAllOk 0 "text/plain" 3 hw (by norm_num)⟩

/-- C1 counterexample: with a clip object present, a string-conversion
failure while issuing the fetch makes get_data_for_item return the error
synchronously, but the registry is left holding an entry for the allocated
handle 1 — not zero dangling entries as claimed. -/
theorem C1_counterexample :
    (get_data_for_item_issue wNewStringFails ⟨some ()⟩ 0 "text/plain"
        RegistryState.initial).1 = .error (.jniError 7) ∧
    lookupPending 1 (get_data_for_item_issue wNewStringFails ⟨some ()⟩ 0
        "text/plain" RegistryState.initial).2.pending = some 0 :=
  ⟨rfl, rfl⟩

/-- C1 amended: when env/context acquisition succeeds but the foreign fetch
call then fails during issuance (string conversion failure, or object
invocation failure after a successful conversion), the operation returns
that error synchronously, and the registry retains exactly the entry it
registered under the allocated handle — one dangling entry, holding this
call's completion sink. -/
theorem C1_amended_dangling_entry (w : ForeignWorld) (item : Int)
    (format : String) (st : RegistryState) (c : Nat)
    (henv : get_env_and_context w = .ok ())
    (hfail : w.newString format = .error c ∨
      (w.newString format = .ok () ∧
        w.callGetData item format (jintOfJlong st.nextHandle) = .error c)) :
    (get_data_for_item_issue w ⟨some ()⟩ item format st).1 =
      .error (.jniError c) ∧
    (get_data_for_item_issue w ⟨some ()⟩ item format st).2.pending =
      insertPending st.nextHandle st.nextSink st.pending ∧
    lookupPending st.nextHandle
      (get_data_for_item_issue w ⟨some ()⟩ item format st).2.pending =
      some st.nextSink := by
  obtain ⟨nh, pm, ns⟩ := st
  rcases hfail with hf | ⟨hok, hf⟩
  · simp [get_data_for_item_issue, henv, hf, lookupPending_insert_self]
  · simp [get_data_for_item_issue, henv, hok, hf, lookupPending_insert_self]

/-- Witness for C1: an object-invocation failure while issuing the fetch
returns the error and leaves the dangling entry for handle 1. -/
theorem C1_amended_witness :
    get_env_and_context wCallFails = .ok () ∧
    (wCallFails.newString "text/plain" = .error 9 ∨
      (wCallFails.newString "text/plain" = .ok () ∧
        wCallFails.callGetData 0 "text/plain"
          (jintOfJlong RegistryState.initial.nextHandle) = .error 9)) ∧
    ((get_data_for_item_issue wCallFails ⟨some ()⟩ 0 "text/plain"
        RegistryState.initial).1 = .error (.jniError 9) ∧
      (get_data_for_item_issue wCallFails ⟨some ()⟩ 0 "text/plain"
        RegistryState.initial).2.pending =
        insertPending RegistryState.initial.nextHandle
          RegistryState.initial.nextSink RegistryState.initial.pending ∧
      lookupPending RegistryState.initial.nextHandle
        (get_data_for_item_issue wCallFails ⟨some ()⟩ 0 "text/plain"
          RegistryState.initial).2.pending =
        some RegistryState.initial.nextSink) :=
  ⟨rfl, Or.inr ⟨rfl, rfl⟩,
    C1_amended_dangling_entry wCallFails 0 "text/plain" RegistryState.initial
      9 rfl (Or.inr ⟨rfl, rfl⟩)⟩

/-- C2 counterexample: a failing format fetch makes
get_suggested_name_for_item return that error — not the successful
"no suggestion" result the claim requires for every failure. -/
theorem C2_counterexample :
    (get_suggested_name_for_item wFormatsFail DecodeWorld.ok .null ⟨some ()⟩
        0 RegistryState.initial).1 = some (.error (.jniError 3)) ∧
    (get_suggested_name_for_item wFormatsFail DecodeWorld.ok .null ⟨some ()⟩
        0 RegistryState.initial).1 ≠ some (.ok none) := by
  have h1 : (get_suggested_name_for_item wFormatsFail DecodeWorld.ok .null
      ⟨some ()⟩ 0 RegistryState.initial).1 =
      some (.error (.jniError 3)) := rfl
  rw [h1]
  simp

/-- C2 amended: only failures of the later derivation steps (non-text
payload, URI parse failure, empty path) degrade to "no suggestion"; any
error get_suggested_name_for_item returns is a propagated failure of the
format fetch or of the data fetch. -/
theorem C2_amended_error_source (w : ForeignWorld) (dw : DecodeWorld)
    (payload : Payload) (r : PlatformDataReader) (item : Int)
    (st : RegistryState) (e : NativeExtensionsError)
    (he : (get_suggested_name_for_item w dw payload r item st).1 =
      some (.error e)) :
    get_formats_for_item_sync w r item = .error e ∨
    (get_data_for_item_result w dw payload r item MIME_TYPE_URI_LIST st).1 =
      some (.error e) := by
  rcases hf : get_formats_for_item_sync w r item with e1 | formats
  · unfold get_suggested_name_for_item at he
    rw [hf] at he
    simp at he
    exact Or.inl (by rw [he])
  · by_cases hany : (formats.any (fun t => t == MIME_TYPE_URI_LIST)) = true
    · unfold get_suggested_name_for_item at he
      rw [hf] at he
      simp only [hany, if_true] at he
      rcases hdr : get_data_for_item_result w dw payload r item
        MIME_TYPE_URI_LIST st with ⟨o, st1⟩
      rw [hdr] at he
      rcases o with _ | res
      · simp at he
      · rcases res with e2 | v
        · simp at he
          refine Or.inr ?_
          simp [he]
        · rcases v with _ | s | bs
          · simp at he
          · simp only [] at he
            rcases hp : Url.parse s with _ | u
            · rw [hp] at he
              simp at he
            · rw [hp] at he
              simp only [] at he
              rcases hs : u.path_segments with _ | segs
              · rw [hs] at he
                simp at he
              · rw [hs] at he
                simp at he
          · simp at he
    · unfold get_suggested_name_for_item at he
      rw [hf] at he
      simp only [hany] at he
      simp at he

/-- Witness for C2 amended: the error returned on a failing format fetch is
exactly that fetch's error. -/
theorem C2_amended_witness :
    (get_suggested_name_for_item wFormatsFail DecodeWorld.ok .null ⟨some ()⟩
        1 RegistryState.initial).1 = some (.error (.jniError 3)) ∧
    (get_formats_for_item_sync wFormatsFail ⟨some ()⟩ 1 =
        .error (.jniError 3) ∨
      (get_data_for_item_result wFormatsFail DecodeWorld.ok .null ⟨some ()⟩ 1
          MIME_TYPE_URI_LIST RegistryState.initial).1 =
        some (.error (.jniError 3))) :=
  ⟨rfl, C2_amended_error_source wFormatsFail DecodeWorld.ok .null ⟨some ()⟩ 1
    RegistryState.initial (.jniError 3) rfl⟩

/-- C5: when the item's formats contain the canonical URI-list format and
the fetched data for it is text, the suggested name is exactly the last
non-empty path segment of the parsed URI (and "no suggestion" when the URI
is malformed, has no path segments, or ends in a trailing slash), as
captured by `spec_last_path_segment`. -/
theorem C5_suggested_name (w : ForeignWorld) (dw : DecodeWorld)
    (payload : Payload) (r : PlatformDataReader) (item : Int)
    (st : RegistryState) (fs : List String) (s : String)
    (hf : get_formats_for_item_sync w r item = .ok fs)
    (hm : MIME_TYPE_URI_LIST ∈ fs)
    (hd : (get_data_for_item_result w dw payload r item MIME_TYPE_URI_LIST
      st).1 = some (.ok (.string s))) :
    (get_suggested_name_for_item w dw payload r item st).1 =
      some (.ok (spec_last_path_segment s)) := by
  have hany : fs.any (fun t => t == MIME_TYPE_URI_LIST) = true :=
    List.any_eq_true.mpr ⟨MIME_TYPE_URI_LIST, hm, by simp⟩
  unfold get_suggested_name_for_item
  rw [hf]
  simp only [hany, if_true]
  rcases hdr : get_data_for_item_result w dw payload r item
    MIME_TYPE_URI_LIST st with ⟨o, st1⟩
  rw [hdr] at hd
  simp only [] at hd
  rw [hd]
  rcases hp : Url.parse s with _ | u
  · simp [spec_last_path_segment, hp]
  · rcases hs : u.path_segments with _ | segs
    · simp [spec_last_path_segment, hp, hs]
    · rcases hl : segs.getLast? with _ | l
      · simp [spec_last_path_segment, hp, hs, hl]
      · by_cases hl0 : l = []
        · simp [spec_last_path_segment, hp, hs, hl, hl0, Option.filter]
        · simp [spec_last_path_segment, hp, hs, hl, hl0, Option.filter]

/-- Witness for C5: payload text "file:///home/user/report.pdf" yields the
suggested name "report.pdf". -/
theorem C5_witness :
    get_formats_for_item_sync wAllOk ⟨some ()⟩ 0 =
      .ok [MIME_TYPE_URI_LIST] ∧
    MIME_TYPE_URI_LIST ∈ [MIME_TYPE_URI_LIST] ∧
    (get_data_for_item_result wAllOk DecodeWorld.ok
        (.charSequence "file:///home/user/report.pdf") ⟨some ()⟩ 0
        MIME_TYPE_URI_LIST RegistryState.initial).1 =
      some (.ok (.string "file:///home/user/report.pdf")) ∧
    (get_suggested_name_for_item wAllOk DecodeWorld.ok
        (.charSequence "file:///home/user/report.pdf") ⟨some ()⟩ 0
        RegistryState.initial).1 = some (.ok (some "report.pdf")) := by
  refine ⟨rfl, by simp, rfl, ?_⟩
  have h := C5_suggested_name wAllOk DecodeWorld.ok
    (.charSequence "file:///home/user/report.pdf") ⟨some ()⟩ 0
    RegistryState.initial [MIME_TYPE_URI_LIST] "file:///home/user/report.pdf"
    rfl (by simp) rfl
  rw [h]
  rfl

/-- C6: the completion callback's payload decoding is exhaustive over the
three shapes — null decodes to the absent value, a CharSequence to a text
string, anything else to a raw byte sequence — every foreign-call error
raised during decoding is captured as the completion result, and whatever
result was produced (value or error) is delivered to the registered sink. -/
theorem C6_decode_exhaustive (dw : DecodeWorld) (s : String) (bs : List Int)
    (c : Nat) (h : Int) (res : NativeExtensionsResult Value)
    (st : RegistryState) (sink : SinkId) :
    decodePayload dw .null = .ok .null ∧
    (dw.isInstanceOfErr = none → dw.getStringErr = none →
      decodePayload dw (.charSequence s) = .ok (.string s)) ∧
    (dw.isInstanceOfErr = none → dw.byteReadErr = none →
      decodePayload dw (.byteArray bs) = .ok (.u8List bs)) ∧
    (dw.isInstanceOfErr = some c →
      decodePayload dw (.charSequence s) = .error (.jniError c)) ∧
    (dw.isInstanceOfErr = none → dw.getStringErr = some c →
      decodePayload dw (.charSequence s) = .error (.jniError c)) ∧
    (dw.isInstanceOfErr = some c →
      decodePayload dw (.byteArray bs) = .error (.jniError c)) ∧
    (dw.isInstanceOfErr = none → dw.byteReadErr = some c →
      decodePayload dw (.byteArray bs) = .error (.jniError c)) ∧
    (lookupPending h st.pending = some sink →
      (onData h res st).2 = some (sink, res)) :=
  ⟨rfl,
    fun h1 h2 => by simp [decodePayload, h1, h2],
    fun h1 h2 => by simp [decodePayload, h1, h2],
    fun h1 => by simp [decodePayload, h1],
    fun h1 h2 => by simp [decodePayload, h1, h2],
    fun h1 => by simp [decodePayload, h1],
    fun h1 h2 => by simp [decodePayload, h1, h2],
    fun h1 => by simp [onData, removePending, h1]⟩

/-- Witness for C6: all three decode shapes, each decode failure point, and
the delivery of an error result to the registered sink, at concrete
inputs. -/
theorem C6_witness :
    decodePayload DecodeWorld.ok .null = .ok .null ∧
    decodePayload DecodeWorld.ok (.charSequence "hi") = .ok (.string "hi") ∧
    decodePayload DecodeWorld.ok (.byteArray [1, 2]) = .ok (.u8List [1, 2]) ∧
    decodePayload ⟨some 4, none, none⟩ (.charSequence "hi") =
      .error (.jniError 4) ∧
    decodePayload ⟨none, some 5, none⟩ (.charSequence "hi") =
      .error (.jniError 5) ∧
    decodePayload ⟨some 4, none, none⟩ (.byteArray []) =
      .error (.jniError 4) ∧
    decodePayload ⟨none, none, some 6⟩ (.byteArray []) =
      .error (.jniError 6) ∧
    (onData 7 (.error (.jniError 5)) ⟨2, [(7, 3)], 1⟩).2 =
      some (3, .error (.jniError 5)) :=
  ⟨(C6_decode_exhaustive DecodeWorld.ok "hi" [] 0 0 (.ok .null)
      RegistryState.initial 0).1,
    (C6_decode_exhaustive DecodeWorld.ok "hi" [] 0 0 (.ok .null)
      RegistryState.initial 0).2.1 rfl rfl,
    (C6_decode_exhaustive DecodeWorld.ok "x" [1, 2] 0 0 (.ok .null)
      RegistryState.initial 0).2.2.1 rfl rfl,
    (C6_decode_exhaustive ⟨some 4, none, none⟩ "hi" [] 4 0 (.ok .null)
      RegistryState.initial 0).2.2.2.1 rfl,
    (C6_decode_exhaustive ⟨none, some 5, none⟩ "hi" [] 5 0 (.ok .null)
      RegistryState.initial 0).2.2.2.2.1 rfl rfl,
    (C6_decode_exhaustive ⟨some 4, none, none⟩ "x" [] 4 0 (.ok .null)
      RegistryState.initial 0).2.2.2.2.2.1 rfl,
    (C6_decode_exhaustive ⟨none, none, some 6⟩ "x" [] 6 0 (.ok .null)
      RegistryState.initial 0).2.2.2.2.2.2.1 rfl rfl,
    (C6_decode_exhaustive DecodeWorld.ok "x" [] 0 7 (.error (.jniError 5))
      ⟨2, [(7, 3)], 1⟩ 3).2.2.2.2.2.2.2 rfl⟩

end SNE
